import Mathlib

/-!
# Verification of the Academic Web Clipper content-extraction core

A shallow embedding of `content.js` (the HTML → Markdown extraction engine of
the Academic-Web-Clipper browser extension).  Strings are modelled as
`List Char`; the JavaScript regular-expression rewrites used by the code are
modelled by a small executable matching engine (`matchFrom` / `replaceAll` /
`reTest`) that implements leftmost, greedy, backtracking matching for the
pattern shapes actually occurring in the source (concatenations of
single-character classes with `*`, `+`, `{n,}` quantifiers and
single-item capture groups).  A JavaScript exception (a thrown `TypeError`)
is modelled by `Option.none`.
-/

set_option maxRecDepth 4000

namespace AWC

/-- Strings are lists of characters; `String.data` injects literals. -/
abbrev Str := List Char

/-- Lower-case a string, character by character (models `toLowerCase`). -/
def lower (s : Str) : Str := s.map Char.toLower

/-- The JavaScript `\s` class (ASCII part, sufficient for this development). -/
def isWsChar (c : Char) : Bool :=
  c = ' ' || c = '\t' || c = '\n' || c = '\r' || c = '\x0b' || c = '\x0c'

/-- The JavaScript `\w` class: `[A-Za-z0-9_]`. -/
def isWordChar (c : Char) : Bool := c.isAlpha || c.isDigit || c = '_'

/-- The class `[A-Z]`. -/
def isUpperCh (c : Char) : Bool := 'A' ≤ c && c ≤ 'Z'

/-- The class `[a-z]`. -/
def isLowerCh (c : Char) : Bool := 'a' ≤ c && c ≤ 'z'

/-- The class `\d`. -/
def isDigitCh (c : Char) : Bool := c.isDigit

/-- The class `[ \t]` (horizontal whitespace). -/
def isSpTab (c : Char) : Bool := c = ' ' || c = '\t'

/-- The class `[.!?]` (sentence-ending punctuation). -/
def isSentEnd (c : Char) : Bool := c = '.' || c = '!' || c = '?'

/-- The class `\n`. -/
def isNlCh (c : Char) : Bool := c = '\n'

/-- `strStarts p s` : `p` is an initial segment of `s`. -/
def strStarts : Str → Str → Bool
  | [], _ => true
  | _, [] => false
  | p :: ps, c :: cs => p = c && strStarts ps cs

/-- `strEnds p s` : `p` is a final segment of `s`. -/
def strEnds (p s : Str) : Bool := strStarts p.reverse s.reverse

/-- `isInfix n h` : `n` occurs contiguously inside `h`
    (models JavaScript `String.prototype.includes`). -/
def isInfix : Str → Str → Bool
  | n, [] => strStarts n []
  | n, h :: t => strStarts n (h :: t) || isInfix n t

/-- Trim JavaScript-style whitespace from both ends (models `trim()`). -/
def trimBoth (s : Str) : Str :=
  ((s.dropWhile isWsChar).reverse.dropWhile isWsChar).reverse

/-- Number of leading characters of `s` satisfying `p`. -/
def runLen (p : Char → Bool) : Str → Nat
  | [] => 0
  | c :: cs => if p c then runLen p cs + 1 else 0

/-- One element of a regular-expression pattern: a character class `p`
    repeated greedily (`many = true`, at least `lo` times) or exactly `lo`
    times (`many = false`); `grp` optionally records the consumed characters
    as a numbered capture group. -/
structure RItem where
  p : Char → Bool
  lo : Nat
  many : Bool
  grp : Option Nat

/-- A single mandatory character `c`. -/
def lit (c : Char) : RItem := ⟨fun d => d = c, 1, false, none⟩

/-- Exactly one character of class `p`, optionally captured. -/
def one (p : Char → Bool) (g : Option Nat) : RItem := ⟨p, 1, false, g⟩

/-- `p*` (greedy), never captured. -/
def star (p : Char → Bool) : RItem := ⟨p, 0, true, none⟩

/-- `p+` (greedy), optionally captured. -/
def plus (p : Char → Bool) (g : Option Nat) : RItem := ⟨p, 1, true, g⟩

/-- `p{n,}` (greedy), never captured. -/
def atLeast (n : Nat) (p : Char → Bool) : RItem := ⟨p, n, true, none⟩

/-- Captured groups: (group number, captured characters). -/
abbrev Caps := List (Nat × Str)

/-- Record a capture if the item carries a group number. -/
def addCap : Option Nat → Str → Caps → Caps
  | none, _, caps => caps
  | some g, t, caps => (g, t) :: caps

/-- Take exactly `n` characters from `s`, all satisfying `p`. -/
def takeExact (p : Char → Bool) : Nat → Str → Option (Str × Str)
  | 0, cs => some ([], cs)
  | _ + 1, [] => none
  | n + 1, c :: cs =>
    if p c then (takeExact p n cs).map (fun pr => (c :: pr.1, pr.2)) else none

/-- Greedy matching of one unbounded item followed by the continuation
    `next` : try consuming `k` characters (initially the full run), backing
    off one character at a time but never below `it.lo`. -/
def goGreedy (it : RItem) (next : Str → Option (Nat × Caps)) (cs : Str) :
    Nat → Option (Nat × Caps)
  | 0 =>
    if 0 < it.lo then none
    else
      match next cs with
      | some pr => some (pr.1, addCap it.grp [] pr.2)
      | none => none
  | k + 1 =>
    if k + 1 < it.lo then none
    else
      match next (cs.drop (k + 1)) with
      | some pr => some (k + 1 + pr.1, addCap it.grp (cs.take (k + 1)) pr.2)
      | none => goGreedy it next cs k

/-- Match a pattern at the start of a string; on success return the number of
    characters consumed and the captures (leftmost-greedy with backtracking,
    as a JavaScript regular expression would). -/
def matchFrom : List RItem → Str → Option (Nat × Caps)
  | [] => fun _ => some (0, [])
  | it :: its =>
    let next := matchFrom its
    fun cs =>
      if it.many then goGreedy it next cs (runLen it.p cs)
      else
        match takeExact it.p it.lo cs with
        | none => none
        | some (t, r) =>
          (next r).map fun pr => (it.lo + pr.1, addCap it.grp t pr.2)

/-- A part of a replacement template: a literal or a `$n` group reference. -/
inductive TPart where
  | istr (s : Str)
  | grp (n : Nat)

/-- Look up group `n` in the captures (absent groups read as empty,
    as JavaScript substitutes the empty string). -/
def capLookup (caps : Caps) (n : Nat) : Str :=
  match caps.find? (fun pr => pr.1 = n) with
  | some pr => pr.2
  | none => []

/-- Instantiate a replacement template with the captures of a match. -/
def applyTmpl (tmpl : List TPart) (caps : Caps) : Str :=
  match tmpl with
  | [] => []
  | .istr s :: rest => s ++ applyTmpl rest caps
  | .grp n :: rest => capLookup caps n ++ applyTmpl rest caps

/-- The scanning loop of a global regex replace: at every position try the
    pattern; on a (non-empty) match emit the instantiated template and resume
    after the matched characters, otherwise keep one character and move on.
    `fuel` bounds the recursion (`replaceAll` supplies the string length). -/
def scanRA (pat : List RItem) (tmpl : List TPart) : Nat → Str → Str
  | 0, cs => cs
  | fuel + 1, cs =>
    match cs with
    | [] => []
    | c :: rest =>
      match matchFrom pat cs with
      | some (n, caps) =>
        if n = 0 then c :: scanRA pat tmpl fuel rest
        else applyTmpl tmpl caps ++ scanRA pat tmpl fuel (cs.drop n)
      | none => c :: scanRA pat tmpl fuel rest

/-- Global regex replace (models `String.replace(/pat/g, tmpl)`). -/
def replaceAll (pat : List RItem) (tmpl : List TPart) (cs : Str) : Str :=
  scanRA pat tmpl cs.length cs

/-- Does the pattern match anywhere? (models `RegExp.test`). -/
def reTest (pat : List RItem) : Str → Bool
  | [] => (matchFrom pat []).isSome
  | c :: rest => (matchFrom pat (c :: rest)).isSome || reTest pat rest

/-- Full-string match of a character class (models `/^p+$/.test`). -/
def fullMatch (p : Char → Bool) (s : Str) : Bool :=
  !s.isEmpty && s.all p

/-- Does the string end in a character of class `p`? (models `/p$/.test`). -/
def endsWithClass (p : Char → Bool) (s : Str) : Bool :=
  match s.reverse with
  | [] => false
  | c :: _ => p c

/-- `p*` (greedy) with a capture group. -/
def starG (p : Char → Bool) (g : Option Nat) : RItem := ⟨p, 0, true, g⟩

/-- Shorthand for a literal template part. -/
def tS (s : String) : TPart := .istr s.data

/-- Any character except `}` (the class `[^}]`). -/
def pNotRBrace (c : Char) : Bool := !(c = '\x7d')

/-- Any character except `$` (the class `[^$]`). -/
def pNotDollar (c : Char) : Bool := !(c = '$')

/-- The single character `$` (the class `\$`). -/
def pIsDollar (c : Char) : Bool := c = '$'

/-- Any character except `_` (the class `[^_]`). -/
def pNotUnder (c : Char) : Bool := !(c = '_')

/-- Any character except `]` (the class `[^\]]`). -/
def pNotRBracket (c : Char) : Bool := !(c = ']')

/-- Any character except `)` (the class `[^)]`). -/
def pNotRParen (c : Char) : Bool := !(c = ')')

/-- The eight detection patterns of `containsLaTeX` (content.js 29-38):
    `\\\w+\{[^}]*\}`, `\w+_\{[^}]*\}`, `\w+\^\{[^}]*\}`, `\w+_\w`,
    `\w+\^\w`, `\\\w+`, `\$[^$]+\$`, `\$\$[^$]+\$\$`. -/
def latexPats : List (List RItem) :=
  [ [lit '\\', plus isWordChar none, lit '\x7b', star pNotRBrace, lit '\x7d']
  , [plus isWordChar none, lit '_', lit '\x7b', star pNotRBrace, lit '\x7d']
  , [plus isWordChar none, lit '^', lit '\x7b', star pNotRBrace, lit '\x7d']
  , [plus isWordChar none, lit '_', one isWordChar none]
  , [plus isWordChar none, lit '^', one isWordChar none]
  , [lit '\\', plus isWordChar none]
  , [lit '$', plus pNotDollar none, lit '$']
  , [lit '$', lit '$', plus pNotDollar none, lit '$', lit '$'] ]

/-- `containsLaTeX` (content.js 27-40): does the text match any of the
    simple LaTeX detection patterns? -/
def containsLaTeX (s : Str) : Bool := latexPats.any (fun p => reTest p s)

/-- Replacement template `$1^{$2}`. -/
def tmplSup12 : List TPart := [.grp 1, tS ("^\x7b"), .grp 2, tS ("\x7d")]

/-- `protectLaTeX` (content.js 43-51): five sequential global rewrites,
    `(\w+)\*\*([A-Z]+)`→`$1^{$2}`, `(\w+)\*\*(\w+)`→`$1^{$2}`,
    `(\w+)__(\w+)`→`$1_{$2}`, `\*\*([A-Z]+)\*\*`→`^{$1}`,
    `__([^_]+)__`→`_{$1}`. -/
def protectLaTeX (s : Str) : Str :=
  s
  |> replaceAll [plus isWordChar (some 1), lit '*', lit '*', plus isUpperCh (some 2)]
       tmplSup12
  |> replaceAll [plus isWordChar (some 1), lit '*', lit '*', plus isWordChar (some 2)]
       tmplSup12
  |> replaceAll [plus isWordChar (some 1), lit '_', lit '_', plus isWordChar (some 2)]
       [.grp 1, tS ("_\x7b"), .grp 2, tS ("\x7d")]
  |> replaceAll [lit '*', lit '*', plus isUpperCh (some 1), lit '*', lit '*']
       [tS ("^\x7b"), .grp 1, tS ("\x7d")]
  |> replaceAll [lit '_', lit '_', plus pNotUnder (some 1), lit '_', lit '_']
       [tS ("_\x7b"), .grp 1, tS ("\x7d")]

/-- Trim every line (models `.replace(/^(.+)$/gm, m => m.trim())`,
    content.js 656-658): split at newlines, trim each segment, rejoin. -/
def splitNl : Str → List Str
  | [] => [[]]
  | c :: cs =>
    if c = '\n' then [] :: splitNl cs
    else
      match splitNl cs with
      | [] => [[c]]
      | l :: ls => (c :: l) :: ls

/-- Rejoin segments with newlines (inverse of `splitNl`). -/
def joinNl : List Str → Str
  | [] => []
  | [l] => l
  | l :: ls => l ++ '\n' :: joinNl ls

/-- Trim each line of the string. -/
def trimLines (s : Str) : Str := joinNl ((splitNl s).map trimBoth)

/-- The "enhanced cleanup" pipeline applied to the transducer output
    (content.js 625-658), pass by pass and in source order:
    `\n{4,}`→`\n\n\n`; `[ \t]+\n`→`\n`; `\n[ \t]+`→`\n`; `[ \t]{2,}`→` `;
    `([.!?])\s*([A-Z])`→`$1 $2`; `([a-z])([A-Z])`→`$1 $2`;
    `(\w)([.!?])\s*(\w)`→`$1$2 $3`; `\n{3,}`→`\n\n`; `\|\s*\n`→`|\n`;
    `^\s+|\s+$`→``; `\[([^\]]*)\]\(\)`→`$1`; `\[\]\([^)]*\)`→``;
    `\|\s*\|\s*\n`→`|\n`; `(\w+)\*\*([A-Z]+)\*\*`→`$1^{$2}`;
    `(\w+)\*\*(\w+)\*\*`→`$1^{$2}`; `(\w+)\*\*([A-Z]+)`→`$1^{$2}`;
    `(\w+)\*\*(\w+)`→`$1^{$2}`; `\*\*([A-Z]+)\*\*`→`^{$1}`;
    `\*\*(\w+)\*\*`→`^{$1}`; `\n\n\n+`→`\n\n`; `([.!?])\n([A-Z])`→`$1\n\n$2`;
    finally each line is trimmed. -/
def cleanupBase (s : Str) : Str :=
  s
  |> replaceAll [atLeast 4 isNlCh] [tS ("\n\n\n")]
  |> replaceAll [plus isSpTab none, lit '\n'] [tS ("\n")]
  |> replaceAll [lit '\n', plus isSpTab none] [tS ("\n")]
  |> replaceAll [atLeast 2 isSpTab] [tS (" ")]
  |> replaceAll [one isSentEnd (some 1), star isWsChar, one isUpperCh (some 2)]
       [.grp 1, tS (" "), .grp 2]
  |> replaceAll [one isLowerCh (some 1), one isUpperCh (some 2)]
       [.grp 1, tS (" "), .grp 2]
  |> replaceAll [one isWordChar (some 1), one isSentEnd (some 2), star isWsChar,
       one isWordChar (some 3)]
       [.grp 1, .grp 2, tS (" "), .grp 3]
  |> replaceAll [atLeast 3 isNlCh] [tS ("\n\n")]
  |> replaceAll [lit '|', star isWsChar, lit '\n'] [tS ("|\n")]
  |> trimBoth
  |> replaceAll [lit '[', starG pNotRBracket (some 1), lit ']', lit '(', lit ')']
       [.grp 1]
  |> replaceAll [lit '[', lit ']', lit '(', star pNotRParen, lit ')'] []
  |> replaceAll [lit '|', star isWsChar, lit '|', star isWsChar, lit '\n'] [tS ("|\n")]
  |> replaceAll [plus isWordChar (some 1), lit '*', lit '*', plus isUpperCh (some 2),
       lit '*', lit '*'] tmplSup12
  |> replaceAll [plus isWordChar (some 1), lit '*', lit '*', plus isWordChar (some 2),
       lit '*', lit '*'] tmplSup12
  |> replaceAll [plus isWordChar (some 1), lit '*', lit '*', plus isUpperCh (some 2)]
       tmplSup12
  |> replaceAll [plus isWordChar (some 1), lit '*', lit '*', plus isWordChar (some 2)]
       tmplSup12
  |> replaceAll [lit '*', lit '*', plus isUpperCh (some 1), lit '*', lit '*']
       [tS ("^\x7b"), .grp 1, tS ("\x7d")]
  |> replaceAll [lit '*', lit '*', plus isWordChar (some 1), lit '*', lit '*']
       [tS ("^\x7b"), .grp 1, tS ("\x7d")]
  |> replaceAll [lit '\n', lit '\n', plus isNlCh none] [tS ("\n\n")]
  |> replaceAll [one isSentEnd (some 1), lit '\n', one isUpperCh (some 2)]
       [.grp 1, tS ("\n\n"), .grp 2]
  |> trimLines

/-- The additional Notion-mode cleanup (content.js 661-666): strip every
    `$$`, then every `$`, then re-collapse `\n{3,}` to `\n\n`. -/
def notionStrip (s : Str) : Str :=
  s
  |> replaceAll [lit '$', lit '$'] []
  |> replaceAll [lit '$'] []
  |> replaceAll [atLeast 3 isNlCh] [tS ("\n\n")]

/-- The whole post-processing pipeline for a given mode. -/
def cleanup (nm : Bool) (s : Str) : Str :=
  if nm then notionStrip (cleanupBase s) else cleanupBase s

/-- Text-node processing (content.js 271-290): collapse whitespace runs and
    trim; empty text yields the empty string; apply `protectLaTeX`; in Notion
    mode, when the text looks like LaTeX, unwrap `$$…$$` into blank-line
    padding and `$…$` into its bare content. -/
def processText (nm : Bool) (s : Str) : Str :=
  let t := trimBoth (replaceAll [plus isWsChar none] [tS (" ")] s)
  if t.isEmpty then []
  else
    let t2 := protectLaTeX t
    if containsLaTeX t2 && nm then
      t2
      |> replaceAll [lit '$', lit '$', plus pNotDollar (some 1), lit '$', lit '$']
           [tS ("\n\n"), .grp 1, tS ("\n\n")]
      |> replaceAll [lit '$', plus pNotDollar (some 1), lit '$'] [.grp 1]
    else t2

/-- Whitespace-delimited word count (content.js 669:
    `result.split(/\s+/).filter(w => w.length > 0).length`). -/
def countWordsAux : Str → Bool → Nat
  | [], _ => 0
  | c :: cs, inWord =>
    if isWsChar c then countWordsAux cs false
    else (if inWord then 0 else 1) + countWordsAux cs true

/-- Number of maximal non-whitespace runs in the string. -/
def wordCount (s : Str) : Nat := countWordsAux s false

/-- The element-node data visible to the core: tag name, class list, id,
    attribute map, and the computed style values the filter reads.  Tags are
    stored lower-case, as `querySelector`/`tagName.toLowerCase()` would
    normalise them. -/
structure ElemData where
  tag : Str
  classes : List Str
  id : Str
  attrs : List (Str × Str)
  styleDisplay : Str
  styleVisibility : Str
  styleOpacity : Str

/-- A read-only DOM node: a text node, an element with ordered children, or
    any other node kind (comment, …). -/
inductive Node where
  | text (s : Str)
  | elem (d : ElemData) (children : List Node)
  | other

/-- `getAttribute`: `none` models JavaScript `null`. -/
def getAttr (d : ElemData) (name : Str) : Option Str :=
  match d.attrs.find? (fun pr => pr.1 = name) with
  | some pr => some pr.2
  | none => none

/-- `hasAttribute`. -/
def hasAttr (d : ElemData) (name : Str) : Bool := (getAttr d name).isSome

/-- `getAttribute(a) === v` (strict equality against a string; `null` is
    never equal). -/
def attrEq (d : ElemData) (name v : Str) : Bool :=
  match getAttr d name with
  | some s => s = v
  | none => false

/-- `getAttribute(a)?.includes(v)` (optional chaining: `null` gives false). -/
def attrIncludes (d : ElemData) (name v : Str) : Bool :=
  match getAttr d name with
  | some s => isInfix v s
  | none => false

mutual
/-- Structural equality of nodes, modelling JavaScript reference equality for
    the comparisons the code makes (a node against the distinguished body
    node of the same tree, where structural and reference equality agree
    because a proper subtree is strictly smaller than the whole tree). -/
def nodeBEq : Node → Node → Bool
  | .text a, .text b => a = b
  | .other, .other => true
  | .elem d a, .elem e b =>
    d.tag = e.tag && d.classes = e.classes && d.id = e.id && d.attrs = e.attrs
      && d.styleDisplay = e.styleDisplay && d.styleVisibility = e.styleVisibility
      && d.styleOpacity = e.styleOpacity && nodesBEq a b
  | _, _ => false
def nodesBEq : List Node → List Node → Bool
  | [], [] => true
  | a :: as_, b :: bs => nodeBEq a b && nodesBEq as_ bs
  | _, _ => false
end

mutual
/-- `textContent`: concatenation of all descendant text data. -/
def textContent : Node → Str
  | .text s => s
  | .other => []
  | .elem _ cs => textContentL cs
def textContentL : List Node → Str
  | [] => []
  | c :: rest => textContent c ++ textContentL rest
end

/-- The generic non-content tags of `shouldSkipElement` (content.js 182). -/
def skipTags : List Str :=
  [("script").data, ("style").data, ("noscript").data, ("head").data,
   ("meta").data, ("link").data, ("title").data]

/-- The interactive/navigation tags of `shouldSkipElement` (content.js 186). -/
def skipInteractive : List Str :=
  [("nav").data, ("menu").data, ("button").data, ("form").data,
   ("input").data, ("textarea").data, ("select").data, ("option").data]

/-- The generic noise class/id vocabulary (content.js 190-197). -/
def skipClasses : List Str :=
  [("nav").data, ("navigation").data, ("menu").data, ("header").data,
   ("footer").data, ("sidebar").data, ("toolbar").data, ("breadcrumb").data,
   ("pagination").data, ("filter").data, ("search").data, ("social").data,
   ("share").data, ("advertisement").data, ("ad").data, ("banner").data,
   ("popup").data, ("modal").data, ("overlay").data, ("comment-form").data,
   ("login").data, ("signup").data, ("subscribe").data, ("newsletter").data,
   ("related").data, ("recommended").data, ("trending").data, ("popular").data,
   ("recent").data, ("widget").data, ("gadget").data, ("plugin").data,
   ("embed").data, ("iframe").data]

/-- The GitHub-specific chrome vocabulary (content.js 205-213), kept exactly
    as written in the source, including the four entries containing capital
    letters. -/
def githubSkipClasses : List Str :=
  [("header").data, ("footer").data, ("subnav").data, ("tabnav").data,
   ("pagehead").data, ("underline-nav").data, ("filter-list").data,
   ("menu-item").data, ("btn").data, ("button").data, ("avatar").data,
   ("label").data, ("counter").data, ("state").data,
   ("timeline-comment-header").data, ("js-").data, ("hide-").data,
   ("dropdown").data, ("select-menu").data, ("autocomplete").data,
   ("suggester").data, ("discussion-").data, ("file-").data, ("blob-").data,
   ("diff-").data, ("hunk-").data, ("octicon").data, ("tooltipped").data,
   ("flash").data, ("notice").data, ("border").data, ("Box").data,
   ("pr-").data, ("issue-").data, ("reaction-").data, ("details-").data,
   ("ActionList").data, ("SelectPanel").data, ("Overlay").data]

/-- Does a vocabulary term hit this element?  The source compares the term
    as written against each lower-cased class name and the lower-cased id,
    by substring (content.js 199-202 and 215-218). -/
def classVocabHit (d : ElemData) (cls : Str) : Bool :=
  d.classes.any (fun nc => isInfix cls (lower nc)) || isInfix cls (lower d.id)

/-- `shouldSkipElement` (content.js 174-243): the content-relevance filter.
    Sequential early `return true`s of a pure predicate are modelled as one
    boolean disjunction in source order. -/
def shouldSkipElement : Node → Bool
  | .elem d _ =>
    let t := lower d.tag
    skipTags.contains t
    || skipInteractive.contains t
    || skipClasses.any (classVocabHit d)
    || githubSkipClasses.any (classVocabHit d)
    || hasAttr d (("data-hotkey").data)
    || hasAttr d (("data-menu-button").data)
    || hasAttr d (("data-action").data)
    || hasAttr d (("data-target").data)
    || attrIncludes d (("aria-label").data) (("filter").data)
    || attrIncludes d (("aria-label").data) (("sort").data)
    || attrIncludes d (("aria-label").data) (("menu").data)
    || attrEq d (("role").data) (("button").data)
    || attrEq d (("role").data) (("menu").data)
    || attrEq d (("role").data) (("menuitem").data)
    || attrEq d (("role").data) (("navigation").data)
    || attrEq d (("aria-hidden").data) (("true").data)
    || d.styleDisplay = ("none").data
    || d.styleVisibility = ("hidden").data
    || d.styleOpacity = ("0").data
  | _ => false

/-- Block-level child tags for `getCleanTextContent` (content.js 258-259). -/
def cleanTextBlockTags : List Str :=
  [("div").data, ("p").data, ("h1").data, ("h2").data, ("h3").data,
   ("h4").data, ("h5").data, ("h6").data, ("li").data, ("td").data,
   ("th").data, ("section").data, ("article").data, ("aside").data]

mutual
/-- `getCleanTextContent` (content.js 246-267): visible-text concatenation
    that skips filtered children and inserts a space before block-level
    children when the accumulated text does not already end in a space. -/
def getCleanTextContent : Node → Str
  | .text s => trimBoth s
  | .other => []
  | .elem _ cs => cleanTextKids [] cs
def cleanTextKids : Str → List Node → Str
  | acc, [] => acc
  | acc, .text s :: rest => cleanTextKids (acc ++ s) rest
  | acc, .other :: rest => cleanTextKids acc rest
  | acc, .elem e k :: rest =>
    if shouldSkipElement (.elem e k) then cleanTextKids acc rest
    else
      let isBlock := cleanTextBlockTags.contains (lower e.tag)
      let acc1 :=
        if isBlock && !acc.isEmpty && !strEnds ([' ']) acc then acc ++ [' ']
        else acc
      cleanTextKids (acc1 ++ getCleanTextContent (.elem e k)) rest
end

/-- The element children of a node list (the DOM `children` collection,
    as opposed to `childNodes`). -/
def elemKids : List Node → List Node
  | [] => []
  | .elem d k :: rest => .elem d k :: elemKids rest
  | _ :: rest => elemKids rest

/-- The operator replacement table of the `mo` case (content.js 69-89):
    glyph to LaTeX command, unknown glyphs pass through. -/
def moLatex (op : Str) : Str :=
  if op = ("\u2212").data then ("-").data
  else if op = ("\u00B1").data then ("\\pm").data
  else if op = ("\u2211").data then ("\\sum").data
  else if op = ("\u222B").data then ("\\int").data
  else if op = ("\u221E").data then ("\\infty").data
  else if op = ("\u03B1").data then ("\\alpha").data
  else if op = ("\u03B2").data then ("\\beta").data
  else if op = ("\u03B3").data then ("\\gamma").data
  else if op = ("\u03B4").data then ("\\delta").data
  else if op = ("\u03B5").data then ("\\epsilon").data
  else if op = ("\u03C0").data then ("\\pi").data
  else if op = ("\u03C3").data then ("\\sigma").data
  else if op = ("\u03B8").data then ("\\theta").data
  else if op = ("\u03BB").data then ("\\lambda").data
  else if op = ("\u03BC").data then ("\\mu").data
  else if op = ("\u2264").data then ("\\leq").data
  else if op = ("\u2265").data then ("\\geq").data
  else if op = ("\u2260").data then ("\\neq").data
  else if op = ("\u2208").data then ("\\in").data
  else if op = ("\u2205").data then ("\\emptyset").data
  else op

/-- Result of converting child `i`: `children[i]` being absent models the
    JavaScript `mathMLToLaTeX(undefined)` call, which throws (`none`); a
    child whose own conversion threw also propagates `none`. -/
def kidAt (kids : List (Option Str)) (i : Nat) : Option Str :=
  match kids.get? i with
  | some r => r
  | none => none

/-- Space-join the converted element children
    (`Array.from(children).map(mathMLToLaTeX).join(' ')`); a throw in any
    child propagates. -/
def joinKids : List (Option Str) → Option Str
  | [] => some []
  | [r] => r
  | r :: rest => do
    let h ← r
    let t ← joinKids rest
    pure (h ++ ' ' :: t)

mutual
/-- `mathMLToLaTeX` (content.js 55-171): recursive MathML-to-LaTeX
    conversion.  `none` models a thrown `TypeError` (the source indexes
    `children[0]` / `children[1]` without a guard in the `msup`, `msub`,
    `mfrac` and `msqrt` cases, and calling the converter on `undefined`
    throws when reading `.tagName`). -/
def mathMLToLaTeX (nm : Bool) : Node → Option Str
  | .text _ => none
  | .other => none
  | .elem d cs =>
    let t := lower d.tag
    let kids := mathKids nm cs
    if t = ("mi").data then some (trimBoth (textContentL cs))
    else if t = ("mn").data then some (trimBoth (textContentL cs))
    else if t = ("mo").data then some (moLatex (trimBoth (textContentL cs)))
    else if t = ("msup").data then do
      let base ← kidAt kids 0
      let expo ← kidAt kids 1
      pure (base ++ ("^\x7b").data ++ expo ++ ("\x7d").data)
    else if t = ("msub").data then do
      let base ← kidAt kids 0
      let idx ← kidAt kids 1
      pure (base ++ ("_\x7b").data ++ idx ++ ("\x7d").data)
    else if t = ("mfrac").data then do
      let num ← kidAt kids 0
      let den ← kidAt kids 1
      pure (("\\frac\x7b").data ++ num ++ ("\x7d\x7b").data ++ den ++ ("\x7d").data)
    else if t = ("msqrt").data then do
      let rad ← kidAt kids 0
      pure (("\\sqrt\x7b").data ++ rad ++ ("\x7d").data)
    else if t = ("mroot").data then
      if kids.length >= 2 then do
        let rad ← kidAt kids 0
        let idx ← kidAt kids 1
        pure (("\\sqrt[").data ++ idx ++ ("]\x7b").data ++ rad ++ ("\x7d").data)
      else joinKids kids
    else if t = ("mrow").data then joinKids kids
    else if t = ("msubsup").data then
      if kids.length >= 3 then do
        let base ← kidAt kids 0
        let sub ← kidAt kids 1
        let sup ← kidAt kids 2
        pure (base ++ ("_\x7b").data ++ sub ++ ("\x7d^\x7b").data ++ sup ++ ("\x7d").data)
      else joinKids kids
    else if t = ("mover").data then
      if kids.length >= 2 then do
        let base ← kidAt kids 0
        let over ← kidAt kids 1
        if over = ("\u00AF").data then
          pure (("\\overline\x7b").data ++ base ++ ("\x7d").data)
        else if over = ("^").data ∨ over = ("\u02C6").data then
          pure (("\\hat\x7b").data ++ base ++ ("\x7d").data)
        else
          pure (("\\overset\x7b").data ++ over ++ ("\x7d\x7b").data ++ base ++ ("\x7d").data)
      else joinKids kids
    else if t = ("munder").data then
      if kids.length >= 2 then do
        let base ← kidAt kids 0
        let under ← kidAt kids 1
        pure (("\\underset\x7b").data ++ under ++ ("\x7d\x7b").data ++ base ++ ("\x7d").data)
      else joinKids kids
    else if t = ("math").data then do
      let content ← joinKids kids
      if attrEq d (("display").data) (("block").data) then
        pure (if nm then ("\n\n").data ++ content ++ ("\n\n").data
              else ("$$").data ++ content ++ ("$$").data)
      else
        pure (if nm then content else '$' :: content ++ ['$'])
    else joinKids kids

/-- Per-element-child conversion results, in `children` order. -/
def mathKids (nm : Bool) : List Node → List (Option Str)
  | [] => []
  | .elem d k :: rest => mathMLToLaTeX nm (.elem d k) :: mathKids nm rest
  | _ :: rest => mathKids nm rest
end

/-- Conversion context threaded through the recursive walk: whether an
    ancestor element is a `math` element (for `node.closest('math')`), the
    parent element's tag (for the `code` and `li` cases; `none` at the root,
    whose parent is outside the processed subtree), the document location
    (base for relative URLs) and the text content of the previous and next
    siblings (for the bold-as-exponent heuristic). -/
structure Ctx where
  ancestorMath : Bool
  parentTag : Option Str
  baseHref : Str
  prevText : Str
  nextText : Str

/-- Models the host URL resolver `new URL(href, location.href).href` used
    for relative link/image targets (host-environment behaviour, not core
    code; no claim depends on its exact normalisation). -/
def resolveUrl (base href : Str) : Str := base ++ href

mutual
/-- Preorder (document-order) list of the element nodes of a subtree,
    the node itself included. -/
def preElems : Node → List Node
  | .elem d k => .elem d k :: preElemsL k
  | _ => []
def preElemsL : List Node → List Node
  | [] => []
  | c :: rest => preElems c ++ preElemsL rest
end

/-- Selector `tag`. -/
def selTag (t : Str) : Node → Bool
  | .elem d _ => lower d.tag = t
  | _ => false

/-- Selector `.cls` (exact class-token match). -/
def selClass (c : Str) : Node → Bool
  | .elem d _ => d.classes.contains c
  | _ => false

/-- Selector `#id`. -/
def selId (i : Str) : Node → Bool
  | .elem d _ => d.id = i
  | _ => false

/-- Selector `[a="v"]`. -/
def selAttrEq (a v : Str) : Node → Bool
  | .elem d _ => attrEq d a v
  | _ => false

/-- Selector `[a]`. -/
def selHasAttr (a : Str) : Node → Bool
  | .elem d _ => hasAttr d a
  | _ => false

/-- The pattern `language-(\w+)` of the `pre` case (content.js 424). -/
def langPat : List RItem :=
  (("language-").data.map lit) ++ [plus isWordChar (some 1)]

/-- First match of a pattern anywhere in the string, returning its captures
    (models `String.match(/…/)` without the `g` flag). -/
def reFind (pat : List RItem) : Str → Option Caps
  | [] => (matchFrom pat []).map (fun pr => pr.2)
  | c :: rest =>
    match matchFrom pat (c :: rest) with
    | some pr => some pr.2
    | none => reFind pat rest

/-- Join class names with single spaces (the `className` string). -/
def joinSp : List Str → Str
  | [] => []
  | [c] => c
  | c :: rest => c ++ ' ' :: joinSp rest

/-- Escape `|` as `\|` inside a table cell (content.js 511). -/
def escPipes : Str → Str
  | [] => []
  | c :: rest => if c = '|' then '\\' :: '|' :: escPipes rest else c :: escPipes rest

/-- `s` repeated `n` times (models `String.repeat`). -/
def repeatStr (s : Str) : Nat → Str
  | 0 => []
  | n + 1 => s ++ repeatStr s n

/-- The Markdown-table reassembly loop of the `table` case
    (content.js 478-501): normalise each row to start and end with `|`,
    and insert a `| --- | … ` separator row right after the first row,
    with one `---` cell per pipe-pair of that normalised first row. -/
def tableRows : List Str → Bool → Str
  | [], _ => []
  | row :: rest, isFirst =>
    let cr0 := trimBoth row
    let cr1 := if strStarts (("|").data) cr0 then cr0 else ("| ").data ++ cr0
    let cr := if strEnds (("|").data) cr1 then cr1 else cr1 ++ (" |").data
    let sep :=
      if isFirst then
        let cellCount := (cr.filter (fun c => c = '|')).length - 1
        ("| ").data ++ repeatStr (("--- | ").data) cellCount
      else []
    cr ++ '\n' :: (if isFirst then sep ++ ['\n'] else []) ++ tableRows rest false

/-- Child tags that make a generic container transparent
    (content.js 532-535). -/
def blockKidTags : List Str :=
  [("p").data, ("div").data, ("h1").data, ("h2").data, ("h3").data,
   ("h4").data, ("h5").data, ("h6").data, ("ul").data, ("ol").data,
   ("blockquote").data]

/-- Tags handled by the explicit ignore fall-through (content.js 549-551). -/
def ignoreTags : List Str :=
  [("script").data, ("style").data, ("noscript").data, ("head").data,
   ("meta").data, ("link").data, ("title").data, ("nav").data,
   ("menu").data, ("button").data, ("form").data, ("input").data,
   ("textarea").data, ("select").data]

/-- Inline tags that get a separating space inserted between sibling
    fragments (content.js 320-322). -/
def spacingTags : List Str :=
  [("span").data, ("a").data, ("strong").data, ("em").data, ("code").data]

/-- Is this child an element whose tag asks for sibling spacing? -/
def isSpacingElem : Node → Bool
  | .elem d _ => spacingTags.contains (lower d.tag)
  | _ => false

/-- Heading / paragraph shape: prefix + trimmed content + two newlines,
    nothing when the content trims to empty. -/
def headingMd (marks : Str) (cm : Str) : Str :=
  let t := trimBoth cm
  if t.isEmpty then [] else marks ++ t ++ ("\n\n").data

/-- The per-tag switch of `processNode` (content.js 331-554), applied to the
    already-concatenated children markdown `cm`.  Returns `none` exactly when
    the `math` case's converter throws. -/
def tagSwitch (nm : Bool) (ctx : Ctx) (d : ElemData) (cs : List Node) (cm : Str) :
    Option Str :=
  let tag := lower d.tag
  let isInsideMath := ctx.ancestorMath || tag = ("math").data
  if tag = ("h1").data then some (headingMd (("# ").data) cm)
  else if tag = ("h2").data then some (headingMd (("## ").data) cm)
  else if tag = ("h3").data then some (headingMd (("### ").data) cm)
  else if tag = ("h4").data then some (headingMd (("#### ").data) cm)
  else if tag = ("h5").data then some (headingMd (("##### ").data) cm)
  else if tag = ("h6").data then some (headingMd (("###### ").data) cm)
  else if tag = ("p").data then
    some (let t := trimBoth cm; if t.isEmpty then [] else t ++ ("\n\n").data)
  else if tag = ("br").data then some ['\n']
  else if tag = ("strong").data ∨ tag = ("b").data then
    let content := trimBoth cm
    let prevT := ctx.prevText
    let isLikelyMath :=
      isInsideMath || containsLaTeX cm || fullMatch isWordChar content
      || (endsWithClass isWordChar prevT && fullMatch isUpperCh content)
      || (endsWithClass isWordChar prevT && fullMatch isDigitCh content)
    if isLikelyMath then
      if endsWithClass isWordChar prevT then
        some (("^\x7b").data ++ content ++ ['\x7d'])
      else some content
    else some (("**").data ++ content ++ ("**").data)
  else if tag = ("em").data ∨ tag = ("i").data then
    let emContent := trimBoth cm
    let isLikelyMath :=
      isInsideMath || containsLaTeX cm || fullMatch isWordChar emContent
    if isLikelyMath then some emContent
    else some ('*' :: emContent ++ ['*'])
  else if tag = ("code").data then
    match ctx.parentTag with
    | some pt => if pt = ("pre").data then some cm
                 else some ('`' :: trimBoth cm ++ ['`'])
    | none => some cm
  else if tag = ("pre").data then
    match (preElemsL cs).find? (selTag (("code").data)) with
    | some ce =>
      let codeContent := trimBoth (textContent ce)
      let cls := match ce with
        | .elem e _ => joinSp e.classes
        | _ => []
      let language := match reFind langPat cls with
        | some caps => capLookup caps 1
        | none => []
      some (("```").data ++ language ++ '\n' :: codeContent ++ ("\n```\n\n").data)
    | none =>
      some (("```\n").data ++ trimBoth (textContentL cs) ++ ("\n```\n\n").data)
  else if tag = ("blockquote").data then
    some (("> ").data ++ trimBoth cm ++ ("\n\n").data)
  else if tag = ("ul").data ∨ tag = ("ol").data then some (cm ++ ['\n'])
  else if tag = ("li").data then
    let t := trimBoth cm
    if t.isEmpty then some []
    else
      match ctx.parentTag with
      | some pt =>
        if pt = ("ol").data then some (("1. ").data ++ t ++ ['\n'])
        else some (("- ").data ++ t ++ ['\n'])
      | none => some (("- ").data ++ t ++ ['\n'])
  else if tag = ("a").data then
    let linkText := trimBoth cm
    match getAttr d (("href").data) with
    | some href =>
      if !href.isEmpty && !linkText.isEmpty && !(href = linkText) then
        let absoluteUrl :=
          if strStarts (("http").data) href then href
          else resolveUrl ctx.baseHref href
        some ('[' :: linkText ++ ("](").data ++ absoluteUrl ++ [')'])
      else if !linkText.isEmpty then some linkText
      else some []
    | none => if !linkText.isEmpty then some linkText else some []
  else if tag = ("img").data then
    let alt := match getAttr d (("alt").data) with
      | some a => if a.isEmpty then ("image").data else a
      | none => ("image").data
    match getAttr d (("src").data) with
    | some src =>
      if src.isEmpty then some []
      else
        let absoluteSrc :=
          if strStarts (("http").data) src then src
          else resolveUrl ctx.baseHref src
        some (("![").data ++ alt ++ ("](").data ++ absoluteSrc ++ (")\n\n").data)
    | none => some []
  else if tag = ("math").data then
    match mathMLToLaTeX nm (.elem d cs) with
    | none => none
    | some l =>
      if attrEq d (("display").data) (("block").data) && !nm then
        some (l ++ ("\n\n").data)
      else some l
  else if tag = ("table").data then
    let tableContent := trimBoth cm
    if tableContent.isEmpty then some []
    else
      let rows := (splitNl tableContent).filter (fun r => !(trimBoth r).isEmpty)
      if rows.length > 0 then some (tableRows rows true ++ ['\n'])
      else some []
  else if tag = ("tr").data then some (cm ++ ("|\n").data)
  else if tag = ("td").data ∨ tag = ("th").data then
    some (' ' :: escPipes (trimBoth cm) ++ (" |").data)
  else if tag = ("span").data then
    if d.classes.contains (("math").data) || d.classes.contains (("katex").data)
        || d.classes.contains (("mathjax").data) || containsLaTeX cm then
      if nm then some (replaceAll [plus pIsDollar none] [] cm)
      else some cm
    else some cm
  else if tag = ("div").data ∨ tag = ("section").data ∨ tag = ("article").data
      ∨ tag = ("main").data ∨ tag = ("aside").data ∨ tag = ("header").data
      ∨ tag = ("footer").data then
    let hasBlockKids := (elemKids cs).any (fun c =>
      match c with
      | .elem e _ => blockKidTags.contains (lower e.tag)
      | _ => false)
    if hasBlockKids then some cm
    else
      let t := trimBoth cm
      if t.isEmpty then some [] else some (t ++ ("\n\n").data)
  else if ignoreTags.contains tag then some []
  else some cm

mutual
/-- `processNode` (content.js 270-556): the Markdown tree transducer.
    `none` models an uncaught JavaScript exception propagating out of the
    recursion (only the unguarded MathML child accesses can raise one). -/
def processNode (nm : Bool) (ctx : Ctx) : Node → Option Str
  | .text s => some (processText nm s)
  | .other => some []
  | .elem d cs =>
    if shouldSkipElement (.elem d cs) then some []
    else
      let tag := lower d.tag
      let kidAM := ctx.ancestorMath || tag = ("math").data
      match processKids nm kidAM tag ctx.baseHref [] [] cs with
      | none => none
      | some cm => tagSwitch nm ctx d cs cm

/-- The children loop of `processNode` (content.js 309-329): concatenate the
    non-empty child fragments, inserting a single space before an inline-tag
    child when the accumulated markdown does not end in a space and the
    child's fragment does not start with one. -/
def processKids (nm : Bool) (am : Bool) (ptag : Str) (base : Str) :
    Str → Str → List Node → Option Str
  | _, acc, [] => some acc
  | prevT, acc, c :: rest =>
    let nextT := match rest with
      | [] => []
      | n :: _ => textContent n
    match processNode nm ⟨am, some ptag, base, prevT, nextT⟩ c with
    | none => none
    | some r =>
      let acc1 :=
        if r.isEmpty then acc
        else
          let needsSp :=
            !acc.isEmpty && !strEnds ([' ']) acc && !strStarts ([' ']) r
              && isSpacingElem c
          (if needsSp then acc ++ [' '] else acc) ++ r
      processKids nm am ptag base (textContent c) acc1 rest
end

/-- The document as the core sees it: the body subtree plus the location
    data read from `window.location` (queries for `article`, `main`, content
    classes etc. live in the body, which is what the locator scans). -/
structure Document where
  body : Node
  hostname : Str
  locationHref : Str

/-- The ordered content-container selector list of Strategy 2
    (content.js 570-574). -/
def contentSelectors : List (Node → Bool) :=
  [selClass (("content").data), selId (("content").data),
   selClass (("post").data), selClass (("entry-content").data),
   selClass (("post-content").data), selClass (("article-content").data),
   selClass (("page-content").data), selClass (("container").data),
   selClass (("wrapper").data), selClass (("main-content").data)]

/-- First selector of the list that matches anywhere, first match wins. -/
def firstQuery (root : Node) : List (Node → Bool) → Option Node
  | [] => none
  | p :: ps =>
    match (preElems root).find? p with
    | some n => some n
    | none => firstQuery root ps

mutual
/-- Descendant-combinator query (`.anc .leaf`): first element in document
    order matching `leaf` with a proper ancestor matching `anc`. -/
def qDesc (anc leaf : Node → Bool) : Bool → Node → Option Node
  | inside, .elem d k =>
    if inside && leaf (.elem d k) then some (.elem d k)
    else qDescL anc leaf (inside || anc (.elem d k)) k
  | _, _ => none
def qDescL (anc leaf : Node → Bool) : Bool → List Node → Option Node
  | _, [] => none
  | ins, c :: rest =>
    match qDesc anc leaf ins c with
    | some r => some r
    | none => qDescL anc leaf ins rest
end

mutual
/-- `target.closest(sel)` computed from the root downward: walking the path
    to `target`, the most recently seen element matching `p` is the nearest
    matching ancestor-or-self.  Outer `none` means `target` is not in this
    subtree. -/
def closestIn (p : Node → Bool) (tgt : Node) : Option Node → Node → Option (Option Node)
  | best, n =>
    let best1 := match n with
      | .elem d k => if p (.elem d k) then some (.elem d k) else best
      | _ => best
    if nodeBEq n tgt then some best1
    else
      match n with
      | .elem _ k => closestInL p tgt best1 k
      | _ => none
def closestInL (p : Node → Bool) (tgt : Node) : Option Node → List Node → Option (Option Node)
  | _, [] => none
  | best, c :: rest =>
    match closestIn p tgt best c with
    | some r => some r
    | none => closestInL p tgt best rest
end

/-- The ordered GitHub-specific queries of Strategy 3 (content.js 584-590). -/
def githubQuery (root : Node) : Option Node :=
  match (preElems root).find? (selAttrEq (("data-testid").data) (("results-list").data)) with
  | some n => some n
  | none =>
  match qDesc (selClass (("js-navigation-container").data))
      (selClass (("js-issue-row").data)) false root with
  | some n => some n
  | none =>
  match (preElems root).find? (selClass (("js-navigation-container").data)) with
  | some n => some n
  | none =>
  match (preElems root).find? (selClass (("repository-content").data)) with
  | some n => some n
  | none =>
  match (preElems root).find? (selClass (("application-main").data)) with
  | some n => some n
  | none =>
  match (preElems root).find? (selHasAttr (("data-turbo-permanent").data)) with
  | some n => some n
  | none => (preElems root).find? (selId (("js-repo-pjax-container").data))

/-- The text-length maximisation scan of Strategy 4 (content.js 600-613):
    strict improvement over a running maximum that starts at 0, first
    occurrence wins ties. -/
def bestCandidate : List Node → Option Node → Nat → Option Node
  | [], best, _ => best
  | c :: rest, best, mx =>
    if shouldSkipElement c then bestCandidate rest best mx
    else
      let len := (getCleanTextContent c).length
      if len > mx then bestCandidate rest (some c) len
      else bestCandidate rest best mx

/-- `findMainContent` (content.js 559-617): the ordered locator strategy. -/
def findMainContent (doc : Document) : Node :=
  match (preElems doc.body).find? (selTag (("article").data)) with
  | some n => n
  | none =>
  match (preElems doc.body).find? (selTag (("main").data)) with
  | some n => n
  | none =>
  match (preElems doc.body).find? (selAttrEq (("role").data) (("main").data)) with
  | some n => n
  | none =>
  match firstQuery doc.body contentSelectors with
  | some n => n
  | none =>
    let gh : Option Node :=
      if isInfix (("github.com").data) doc.hostname then
        match githubQuery doc.body with
        | some mc =>
          match closestIn (selClass (("js-navigation-container").data)) mc none doc.body with
          | some (some a) => some a
          | _ => some mc
        | none => none
      else none
    match gh with
    | some n => n
    | none =>
      let cands := (preElems doc.body).filter (fun n =>
        selTag (("div").data) n || selTag (("section").data) n
          || selTag (("article").data) n || selTag (("main").data) n)
      match bestCandidate cands none 0 with
      | some n => n
      | none => doc.body

/-- Result of one invocation of the orchestrator: a returned string, a
    propagated exception, or non-termination (fuel exhausted on the retry
    self-call). -/
inductive XRes where
  | val (s : Str)
  | exn
  | diverge
deriving DecidableEq

/-- The root context of an extraction run. -/
def rootCtx (doc : Document) : Ctx := ⟨false, none, doc.locationHref, [], []⟩

/-- `extractPageContent` (content.js 25-678): locate the main content,
    transduce it, clean the result, and — when the cleaned result has fewer
    than 3 words and the located root is not the body — re-invoke the whole
    extraction (content.js 668-675).  The source's re-invocation
    `extractPageContent(notionMode)` recomputes everything from the same
    document, which the fuel parameter makes terminating in the model:
    `diverge` for every fuel value models the non-terminating recursion. -/
def extractFuel : Nat → Bool → Document → XRes
  | 0, _, _ => .diverge
  | fuel + 1, nm, doc =>
    let root := findMainContent doc
    match processNode nm (rootCtx doc) root with
    | none => .exn
    | some raw =>
      let result := cleanup nm raw
      if wordCount result < 3 && !nodeBEq root doc.body then
        extractFuel fuel nm doc
      else .val result

/-- All literal characters of a replacement template. -/
def tmplLits : List TPart → Str
  | [] => []
  | .istr s :: rest => s ++ tmplLits rest
  | .grp _ :: rest => tmplLits rest

/-- An element with the given tag and classes, no id or attributes, and
    fully visible computed style. -/
def visElem (tag : Str) (classes : List Str) (cs : List Node) : Node :=
  .elem ⟨tag, classes, [], [], ("block").data, ("visible").data, ("1").data⟩ cs

/-- A document over a plain (non-GitHub) host. -/
def plainDoc (b : Node) : Document :=
  ⟨b, ("example.com").data, ("https://example.com/page").data⟩

/-- `<td>` holding one text node. -/
def tdNode (s : Str) : Node := visElem (("td").data) [] [.text s]

/-- `<tr>` with two cells. -/
def trNode (a b : Str) : Node :=
  visElem (("tr").data) [] [tdNode a, tdNode b]

/-- The 2-row, 2-column table document of the table-reconstruction claim:
    `<body><table><tr><td>a</td><td>b</td></tr><tr><td>c</td><td>d</td></tr></table></body>`. -/
def tableDoc : Document :=
  plainDoc (visElem (("body").data) []
    [visElem (("table").data) [] [trNode (("a").data) (("b").data),
                                  trNode (("c").data) (("d").data)]])

/-- A body holding just the text `q**S`. -/
def qDoc : Document :=
  plainDoc (visElem (("body").data) [] [.text (("q**S").data)])

/-- A body holding just the text `**bold**`. -/
def boldDoc : Document :=
  plainDoc (visElem (("body").data) [] [.text (("**bold**").data)])

/-- A document whose located main content (`<article>Hi</article>`) cleans up
    to fewer than 3 words while the body holds plenty of words:
    the near-empty-result escalation fires on it. -/
def loopDocA : Document :=
  plainDoc (visElem (("body").data) []
    [visElem (("article").data) [] [.text (("Hi").data)],
     visElem (("div").data) [] [.text (("plenty of words right here").data)]])

/-- A second escalation-firing document, located via `<main>`. -/
def loopDocB : Document :=
  plainDoc (visElem (("body").data) []
    [visElem (("main").data) [] [.text (("Hey").data)],
     visElem (("div").data) [] [.text (("enough words to count here").data)]])

/-- A body holding the inline-math text `$aB$`. -/
def abDoc : Document :=
  plainDoc (visElem (("body").data) [] [.text (("$aB$").data)])

/-- A body holding the inline-math text `$E$`. -/
def eDoc : Document :=
  plainDoc (visElem (("body").data) [] [.text (("$E$").data)])

/-- `<mi>x</mi>`. -/
def miX : Node := visElem (("mi").data) [] [.text [ 'x' ]]

/-- `<mn>2</mn>`. -/
def mnTwo : Node := visElem (("mn").data) [] [.text [ '2' ]]

/-- `<msup><mi>x</mi><mn>2</mn></msup>`. -/
def msupX2 : Node := visElem (("msup").data) [] [miX, mnTwo]

/-- The inline math node of the rendering claim:
    `<math><mi>x</mi><msup><mi>x</mi><mn>2</mn></msup></math>` (no
    `display="block"` attribute). -/
def mathX : Node := visElem (("math").data) [] [miX, msupX2]

/-- A superscript node with only one child: `<msup><mi>x</mi></msup>`. -/
def msupOneChild : Node := visElem (("msup").data) [] [miX]

/-- A `div` classed `sidebar` holding a nested heading. -/
def sidebarDiv : Node :=
  visElem (("div").data) [(("sidebar").data)]
    [visElem (("h2").data) [] [.text (("Hidden Heading").data)]]

/-- A visible, attribute-free `div` whose only class is `Box`. -/
def boxDiv : Node :=
  visElem (("div").data) [(("Box").data)] [.text [ 'x' ]]

/-- A visible `div` whose only class is `gradient` (which contains the
    generic noise term `ad` as a substring). -/
def gradientDiv : Node :=
  visElem (("div").data) [(("gradient").data)] [.text [ 'x' ]]

/-- A visible `div` whose only class is `border-top` (which contains the
    site-specific term `border` as a substring). -/
def borderDiv : Node :=
  visElem (("div").data) [(("border-top").data)] [.text [ 'x' ]]

/-- Representative well-formed Markdown fragment (heading, paragraph,
    list). -/
def mdFragA : Str :=
  ("# Title\n\nHello world. This is fine.\n\n- item one\n- item two\n").data

/-- Representative fragment containing emphasis markers. -/
def mdFragB : Str := ("Some **bold** claim here.").data

/-- The empty-table-cell string on which one cleanup pass keeps making
    progress: `| | | |\nx`. -/
def pipeRun : Str := ("| | | |\nx").data

/-! ## Engine lemmas -/

/-- Templates without group references. -/
def noGrpTmpl : List TPart → Bool
  | [] => true
  | .istr _ :: rest => noGrpTmpl rest
  | .grp _ :: _ => false

theorem applyTmpl_of_noGrp {tmpl : List TPart} (caps : Caps)
    (h : noGrpTmpl tmpl = true) : applyTmpl tmpl caps = tmplLits tmpl := by
  induction tmpl with
  | nil => simp [applyTmpl, tmplLits]
  | cons t rest ih =>
    cases t with
    | istr s =>
      rw [noGrpTmpl] at h
      rw [applyTmpl, tmplLits, ih h]
    | grp n => simp [noGrpTmpl] at h

theorem scanRA_no_new {x : Char} {pat : List RItem} {tmpl : List TPart}
    (hg : noGrpTmpl tmpl = true) (hT : x ∉ tmplLits tmpl) :
    ∀ (fuel : Nat) (cs : Str), x ∉ cs → x ∉ scanRA pat tmpl fuel cs := by
  intro fuel
  induction fuel with
  | zero => intro cs h; simpa [scanRA] using h
  | succ m ih =>
    intro cs h
    cases cs with
    | nil => simp [scanRA]
    | cons c rest =>
      have hx : ¬x = c := fun he => h (by simp [he])
      have hr : x ∉ rest := fun hr => h (List.mem_cons_of_mem _ hr)
      rw [scanRA]
      rcases h2 : matchFrom pat (c :: rest) with - | pr
      · simpa [hx] using ih rest hr
      · by_cases hz : pr.1 = 0
        · simpa [hz, hx] using ih rest hr
        · simp only [hz, if_neg hz]
          rw [applyTmpl_of_noGrp pr.2 hg]
          intro hmem
          rcases List.mem_append.mp hmem with he | he
          · exact hT he
          · exact ih _ (fun hd => h (List.mem_of_mem_drop hd)) he

theorem replaceAll_no_new {x : Char} {pat : List RItem} {tmpl : List TPart}
    (hg : noGrpTmpl tmpl = true) (hT : x ∉ tmplLits tmpl) {cs : Str}
    (h : x ∉ cs) : x ∉ replaceAll pat tmpl cs :=
  scanRA_no_new hg hT cs.length cs h

theorem matchFrom_single_lit (ch : Char) (cs : Str) :
    matchFrom [lit ch] cs =
      match cs with
      | [] => none
      | c :: _ => if c = ch then some (1, []) else none := by
  cases cs with
  | nil => simp [matchFrom, lit, takeExact]
  | cons c rs =>
    by_cases hc : c = ch
    · simp [matchFrom, lit, takeExact, hc, addCap]
    · simp [matchFrom, lit, takeExact, hc]

theorem scanRA_strip_lit (ch : Char) :
    ∀ (fuel : Nat) (cs : Str), cs.length ≤ fuel →
      ch ∉ scanRA [lit ch] [] fuel cs := by
  intro fuel
  induction fuel with
  | zero =>
    intro cs hlen
    have hnil : cs = [] := List.length_eq_zero.mp (Nat.le_zero.mp hlen)
    simp [hnil, scanRA]
  | succ m ih =>
    intro cs hlen
    cases cs with
    | nil => simp [scanRA]
    | cons c rest =>
      rw [scanRA, matchFrom_single_lit]
      by_cases hc : c = ch
      · simpa [hc, applyTmpl] using ih rest (Nat.le_of_succ_le_succ hlen)
      · have hcx : ¬ch = c := fun he => hc he.symm
        simpa [hc, hcx] using ih rest (Nat.le_of_succ_le_succ hlen)

theorem notionStrip_no_dollar (s : Str) : '$' ∉ notionStrip s := by
  rw [notionStrip]
  apply replaceAll_no_new (by rfl)
  · intro h
    simp [tmplLits, tS] at h
  · exact scanRA_strip_lit '$' _ _ (Nat.le_refl _)

theorem cleanup_true_no_dollar (s : Str) : '$' ∉ cleanup true s := by
  rw [cleanup]
  simpa using notionStrip_no_dollar (cleanupBase s)

/-! ## Claim theorems -/

/-- C1: the claim says the orchestrator retries the pipeline with the
    document body as root and returns that retry's result.  The code
    (content.js 673) instead re-invokes `extractPageContent(notionMode)`,
    which recomputes the very same non-body root, against the stated intent
    of its own comments ("try with document.body as fallback", "Recursive
    call with body").  Evaluated at the failing input `loopDocA` (an
    `<article>` that cleans up to 1 word inside a body with plenty of
    words): the extraction diverges at every fuel, although a body-rooted
    run would have returned at least 3 words. -/
theorem c1_retry_never_uses_body :
    (∀ n : Nat, extractFuel n false loopDocA = XRes.diverge)
    ∧ 3 ≤ wordCount (cleanup false
        ((processNode false (rootCtx loopDocA) loopDocA.body).getD [])) := by
  constructor
  · intro n
    induction n with
    | zero => rfl
    | succ m ih => exact ih
  · decide

/-- C2: the claim says the self-invocation is capped at one retry and the
    extraction always terminates.  In the code the re-invocation is
    unguarded and recomputes the same state, so whenever the escalation
    condition holds the recursion never terminates: at the failing input
    `loopDocB` the model diverges for every fuel value, in both modes. -/
theorem c2_retry_unbounded :
    ∀ n : Nat, extractFuel n true loopDocB = XRes.diverge := by
  intro n
  induction n with
  | zero => rfl
  | succ m ih => exact ih

/-- C3 counterexample: a superscript node with one child makes the converter
    call itself on the absent `children[1]`, which throws a `TypeError`
    (`none` in the model) instead of treating the child as empty. -/
theorem c3_msup_one_child_throws :
    mathMLToLaTeX false msupOneChild = none := by decide

/-- C3 amended: only the guarded kinds (`mroot`, `msubsup`, `mover`,
    `munder`) degrade to space-joined partial output on deficient children;
    the unguarded kinds (`msup`, `msub`, `mfrac`, `msqrt`) throw when a
    child is missing. -/
theorem c3_guarded_kinds_degrade : ∀ nm : Bool,
    mathMLToLaTeX nm (visElem (("mroot").data) [] [miX]) = some [ 'x' ]
    ∧ mathMLToLaTeX nm (visElem (("msubsup").data) [] [miX, mnTwo])
        = some (("x 2").data)
    ∧ mathMLToLaTeX nm (visElem (("mover").data) [] [miX]) = some [ 'x' ]
    ∧ mathMLToLaTeX nm (visElem (("munder").data) [] []) = some []
    ∧ mathMLToLaTeX nm (visElem (("msub").data) [] [miX]) = none
    ∧ mathMLToLaTeX nm (visElem (("mfrac").data) [] [miX]) = none
    ∧ mathMLToLaTeX nm (visElem (("msqrt").data) [] []) = none := by decide

/-- C4 counterexample: a standalone `**bold**` (no preceding word character,
    matching no math heuristic) is not left unchanged: the extraction
    returns `^{bold}`, because the unconditional fourth-pass cleanup rule
    `\*\*(\w+)\*\*` → `^{$1}` rewrites it. -/
theorem c4_bold_not_preserved :
    extractFuel 1 false boldDoc = XRes.val (("^\x7bbold\x7d").data)
    ∧ ¬ extractFuel 1 false boldDoc = XRes.val (("**bold**").data) := by decide

/-- C4 amended: `q**S` converts to `q^{S}` as claimed; `**bold**` standing
    alone passes `protectLaTeX` unchanged, but the final output is
    `^{bold}` because the fourth cleanup pass converts every remaining
    `**word**`. -/
theorem c4_exponent_repair :
    extractFuel 1 false qDoc = XRes.val (("q^\x7bS\x7d").data)
    ∧ protectLaTeX (("**bold**").data) = ("**bold**").data
    ∧ extractFuel 1 false boldDoc = XRes.val (("^\x7bbold\x7d").data) := by decide

/-- C5: the inline math node `<math><mi>x</mi><msup><mi>x</mi><mn>2</mn>`
    `</msup></math>` renders exactly as `$x x^{2}$` in delimited mode and
    exactly as `x x^{2}` (with no `$` character) in compact mode. -/
theorem c5_math_rendering :
    mathMLToLaTeX false mathX = some (("$x x^\x7b2\x7d$").data)
    ∧ mathMLToLaTeX true mathX = some (("x x^\x7b2\x7d").data)
    ∧ '$' ∉ (("x x^\x7b2\x7d").data : Str) := by decide

/-- C6 counterexample: for the document containing `$aB$` the compact-mode
    output is `a B` — the camel-case spacing repair has split the content
    `aB`, so the output does not contain `E = aB` even though it contains no
    `$`. -/
theorem c6_content_not_verbatim :
    extractFuel 1 true abDoc = XRes.val (("a B").data)
    ∧ isInfix (("aB").data) (("a B").data) = false := by decide

/-- C6 amended: the compact-mode cleanup output never contains a `$`
    character, for every input string; the delimited content survives only
    up to the pipeline's spacing repairs (it does survive verbatim for
    content the repairs leave alone, e.g. the single letter `E`). -/
theorem c6_no_dollars_in_compact :
    (∀ s : Str, '$' ∉ cleanup true s)
    ∧ extractFuel 1 true eDoc = XRes.val [ 'E' ]
    ∧ '$' ∉ ([ 'E' ] : Str) := by
  refine ⟨cleanup_true_no_dollar, by decide, by decide⟩

/-- C7: an element whose class list contains a generic noise term, or whose
    computed display is `none`, is skipped by the filter, and the transducer
    returns the empty fragment for it without descending — whatever its
    children are, in either mode, so no nested text can reach the output. -/
theorem c7_filter_skips (d : ElemData) (cs : List Node) (nm : Bool) (ctx : Ctx)
    (h : (∃ t ∈ skipClasses, ∃ c ∈ d.classes, isInfix t (lower c) = true)
       ∨ d.styleDisplay = ("none").data) :
    shouldSkipElement (.elem d cs) = true
    ∧ processNode nm ctx (.elem d cs) = some [] := by
  have hskip : shouldSkipElement (.elem d cs) = true := by
    rcases h with ⟨t, ht, c, hc, hinf⟩ | hd
    · have h3 : skipClasses.any (classVocabHit d) = true := by
        refine List.any_eq_true.mpr ⟨t, ht, ?_⟩
        unfold classVocabHit
        have h4 : d.classes.any (fun nc => isInfix t (lower nc)) = true :=
          List.any_eq_true.mpr ⟨c, hc, hinf⟩
        simp [h4]
      simp [shouldSkipElement, h3]
    · simp [shouldSkipElement, hd]
  exact ⟨hskip, by simp [processNode, hskip]⟩

/-- C7 witness: a `div` classed `sidebar` with a nested `<h2>` heading is
    skipped and contributes the empty string. -/
theorem c7_filter_skips_witness :
    shouldSkipElement sidebarDiv = true
    ∧ processNode false (rootCtx qDoc) sidebarDiv = some [] :=
  c7_filter_skips _ _ false (rootCtx qDoc)
    (Or.inl ⟨("sidebar").data, by decide, ("sidebar").data, by decide, by decide⟩)

/-- C8 counterexample: the 2×2 table does not produce 4 data lines plus a
    `| --- | --- |` separator: the whole output has exactly 3 lines and no
    line equals `| --- | --- |` (the separator carries three `---` cells
    because the doubled trailing pipe of the header row inflates the count,
    and the last row keeps its doubled pipe). -/
theorem c8_table_shape :
    extractFuel 1 false tableDoc
      = XRes.val (("| a | b |\n| --- | --- | --- |\n| c | d ||").data)
    ∧ (splitNl (("| a | b |\n| --- | --- | --- |\n| c | d ||").data)).length = 3
    ∧ ¬ (("| --- | --- |").data
          ∈ splitNl (("| a | b |\n| --- | --- | --- |\n| c | d ||").data)) := by
  decide

/-- C8 amended: the 2-row, 2-column table produces exactly 2 pipe-delimited
    data lines plus exactly one separator line `| --- | --- | --- |`,
    positioned immediately after the first (header) row's line; the final
    data line retains a doubled trailing pipe. -/
theorem c8_table_lines :
    extractFuel 1 false tableDoc
      = XRes.val (("| a | b |\n| --- | --- | --- |\n| c | d ||").data)
    ∧ splitNl (("| a | b |\n| --- | --- | --- |\n| c | d ||").data)
      = [("| a | b |").data, ("| --- | --- | --- |").data, ("| c | d ||").data] := by
  decide

/-- C9 counterexample: cleanup is not idempotent: on `| | | |\nx` the
    empty-table-cell pass removes one empty cell pair per run, so a second
    cleanup changes the output again. -/
theorem c9_not_idempotent :
    ¬ cleanup false (cleanup false pipeRun) = cleanup false pipeRun := by decide

/-- C9 amended: cleanup reaches a fixed point after one pass on
    representative well-formed Markdown fragments (in both modes), though
    not for every string. -/
theorem c9_idempotent_on_fragments : ∀ m : Bool,
    cleanup m (cleanup m mdFragA) = cleanup m mdFragA
    ∧ cleanup m (cleanup m mdFragB) = cleanup m mdFragB := by decide

/-- C10 counterexample: the matching is not case-insensitive substring
    matching of the vocabularies: the term `Box` is in the site-specific
    vocabulary and matches the class `Box` case-insensitively (and even
    literally), yet the element is not skipped, because the code lower-cases
    the class but compares the term as written. -/
theorem c10_capitalized_terms_dead :
    ("Box").data ∈ githubSkipClasses
    ∧ isInfix (lower (("Box").data)) (lower (("Box").data)) = true
    ∧ shouldSkipElement boxDiv = false := by decide

/-- C10 amended: the filter compares each vocabulary term as written against
    the lower-cased class names and lower-cased id, by substring, and the
    site-specific vocabulary applies unconditionally (no hostname guard in
    the filter); any element with such a substring hit is skipped.  (Terms
    written with capital letters can therefore never match, per the
    counterexample.) -/
theorem c10_substring_filter (d : ElemData) (cs : List Node)
    (h : ∃ t, (t ∈ skipClasses ∨ t ∈ githubSkipClasses)
      ∧ ((∃ c ∈ d.classes, isInfix t (lower c) = true)
          ∨ isInfix t (lower d.id) = true)) :
    shouldSkipElement (.elem d cs) = true := by
  rcases h with ⟨t, hvoc, hhit⟩
  have hch : classVocabHit d t = true := by
    unfold classVocabHit
    rcases hhit with ⟨c, hc, hinf⟩ | hid
    · have h4 : d.classes.any (fun nc => isInfix t (lower nc)) = true :=
        List.any_eq_true.mpr ⟨c, hc, hinf⟩
      simp [h4]
    · simp [hid]
  rcases hvoc with hv | hv
  · have h3 : skipClasses.any (classVocabHit d) = true :=
      List.any_eq_true.mpr ⟨t, hv, hch⟩
    simp [shouldSkipElement, h3]
  · have h3 : githubSkipClasses.any (classVocabHit d) = true :=
      List.any_eq_true.mpr ⟨t, hv, hch⟩
    simp [shouldSkipElement, h3]

/-- C10 witness: the class `gradient` (which merely contains the generic
    term `ad`) and the class `border-top` (which contains the site-specific
    term `border`) both get their elements skipped. -/
theorem c10_substring_filter_witness :
    shouldSkipElement gradientDiv = true ∧ shouldSkipElement borderDiv = true :=
  ⟨c10_substring_filter _ _
      ⟨("ad").data, Or.inl (by decide),
        Or.inl ⟨("gradient").data, by decide, by decide⟩⟩,
    c10_substring_filter _ _
      ⟨("border").data, Or.inr (by decide),
        Or.inl ⟨("border-top").data, by decide, by decide⟩⟩⟩

end AWC
